import Mathlib

set_option maxRecDepth 40000

/-!
Shallow embedding of the HTML-to-Markdown conversion pipeline of
`src/ar5iv-to-md.mjs` (papers-mcp).  The DOM tree supplied by the external
Document Tree Builder is modelled as the inductive `Node`; every renderer of
the source file is translated as a computable Lean function over `Node`.
String primitives of the JavaScript runtime (trim, toLowerCase, global
character replacement, whitespace collapse) are modelled over `List Char`
so that all definitions evaluate inside the kernel.
-/

/-- Model of JS `String.prototype.toLowerCase` restricted to ASCII letters
(the only letters that appear in tag names and class names here). -/
def lowerChar (c : Char) : Char :=
  if 65 ≤ c.toNat ∧ c.toNat ≤ 90 then Char.ofNat (c.toNat + 32) else c

/-- ASCII-lowercasing of a string, modelling JS `toLowerCase`. -/
def strLower (s : String) : String := String.mk (s.data.map lowerChar)

/-- The JS whitespace characters relevant to trimming and `\s` (space, tab,
newline, carriage return, vertical tab, form feed). -/
def isWsChar (c : Char) : Bool :=
  c == ' ' || c == '\t' || c == '\n' || c == '\r' || c == '\x0b' || c == '\x0c'

/-- Model of JS `String.prototype.trim`. -/
def trimWs (s : String) : String :=
  String.mk (((s.data.dropWhile isWsChar).reverse.dropWhile isWsChar).reverse)

/-- Model of a JS global regex replacement of the single character `c` by the
string `r` (the source only ever replaces single characters globally). -/
def replaceChar (s : String) (c : Char) (r : String) : String :=
  String.mk (s.data.flatMap (fun d => if d == c then r.data else [d]))

/-- Worker for `collapseWs`: the flag records whether the previous character
was whitespace (so a run contributes a single space). -/
def collapseWsAux : List Char → Bool → List Char
  | [], _ => []
  | c :: cs, prevWs =>
    if isWsChar c then
      if prevWs then collapseWsAux cs true else ' ' :: collapseWsAux cs true
    else c :: collapseWsAux cs false

/-- Model of the JS replacement `.replace(/\s+/g, ' ')`: every maximal run of
whitespace becomes one space. -/
def collapseWs (s : String) : String := String.mk (collapseWsAux s.data false)

/-- Model of JS `String.prototype.startsWith`. -/
def strStartsWith (s t : String) : Bool := t.data.isPrefixOf s.data

/-- Model of JS `String.prototype.endsWith`. -/
def strEndsWith (s t : String) : Bool := t.data.isSuffixOf s.data

/-- Whether the character `c` occurs in `s`. -/
def strContainsChar (s : String) (c : Char) : Bool := s.data.contains c

/-- The DOM tree handed to the converter by the Document Tree Builder
(JSDOM).  A node is either a text node (`nodeType === 3`) or an element
(`nodeType === 1`) with a tag name (JSDOM reports HTML tag names in upper
case and foreign tag names such as `math` verbatim), a class list, an
attribute map and an ordered child list. -/
inductive Node where
  | text : String → Node
  | elem : String → List String → List (String × String) → List Node → Node

/-- `tagName` of an element node (empty for text nodes, which have none). -/
def Node.tagName : Node → String
  | .text _ => ""
  | .elem t _ _ _ => t

/-- `classList` of an element node. -/
def Node.classes : Node → List String
  | .text _ => []
  | .elem _ cs _ _ => cs

/-- All child nodes (`childNodes` in the DOM: text and element children). -/
def Node.childNodes : Node → List Node
  | .text _ => []
  | .elem _ _ _ ch => ch

/-- Whether the node is an element node (`nodeType === 1`). -/
def Node.isElem : Node → Bool
  | .text _ => false
  | .elem _ _ _ _ => true

/-- Element children only (`children` in the DOM). -/
def Node.children (n : Node) : List Node := n.childNodes.filter Node.isElem

/-- `getAttribute(name) || ''`: the attribute's value, or the empty string
when the attribute is absent. -/
def Node.getAttr (n : Node) (name : String) : String :=
  match n with
  | .text _ => ""
  | .elem _ _ attrs _ => ((attrs.lookup name).getD "")

mutual
/-- `textContent`: concatenation of all descendant text. -/
def textContent : Node → String
  | .text s => s
  | .elem _ _ _ ch => textContentList ch

/-- `textContent` over a child list. -/
def textContentList : List Node → String
  | [] => ""
  | n :: ns => textContent n ++ textContentList ns
end

mutual
/-- All proper descendants of a node in document (pre)order, as traversed by
`querySelectorAll`. -/
def descendants : Node → List Node
  | .text _ => []
  | .elem _ _ _ ch => descendantsList ch

/-- Descendant collection over a child list: each child followed by its own
descendants. -/
def descendantsList : List Node → List Node
  | [] => []
  | n :: ns => n :: (descendants n ++ descendantsList ns)
end

/-- A simple CSS selector of the shapes used by the source: an optional type
(tag) constraint and an optional single class constraint (`tag.cls`, `tag`,
or `.cls`). -/
structure Sel where
  tag : Option String
  cls : Option String

/-- Whether an element node matches a simple selector.  Type selectors match
HTML tag names case-insensitively; text nodes match nothing. -/
def selMatches (n : Node) (s : Sel) : Bool :=
  n.isElem
  && (match s.tag with
      | none => true
      | some t => strLower n.tagName == t)
  && (match s.cls with
      | none => true
      | some c => n.classes.contains c)

/-- Whether a node matches any selector of a comma-separated selector list. -/
def selMatchesAny (n : Node) (ss : List Sel) : Bool := ss.any (selMatches n)

/-- `querySelectorAll` for a comma-separated list of simple selectors:
the matching descendants in document order. -/
def qsa (n : Node) (ss : List Sel) : List Node :=
  (descendants n).filter (fun d => selMatchesAny d ss)

/-- `querySelector`: the first matching descendant, if any. -/
def qs (n : Node) (ss : List Sel) : Option Node := (qsa n ss).head?

mutual
/-- Worker for the child-combinator selector `p > c`: collect, in document
order, the elements matching `c` whose parent element matches `p`. -/
def childSelNode (p c : Sel) : Node → List Node
  | .text _ => []
  | .elem tg cl ats ch => childSelList p c (selMatches (.elem tg cl ats ch) p) ch

/-- Worker over a child list; `parentOk` records whether the parent element
matches `p`. -/
def childSelList (p c : Sel) (parentOk : Bool) : List Node → List Node
  | [] => []
  | n :: ns =>
    (if parentOk && selMatches n c then [n] else [])
      ++ childSelNode p c n ++ childSelList p c parentOk ns
end

/-- `querySelectorAll("<p-sel> > <c-sel>")` on `root`. -/
def qsaChild (root : Node) (p c : Sel) : List Node := childSelNode p c root

/-- `processMath`: inline math becomes the `alttext` attribute wrapped in
single dollar signs; the formula is found on the element itself when it is a
`math` element, else on its first `math` descendant; no math yields `''`. -/
def processMath (element : Node) : String :=
  if strLower element.tagName == "math" then
    "$" ++ element.getAttr "alttext" ++ "$"
  else
    match qs element [Sel.mk (some "math") none] with
    | some math => "$" ++ math.getAttr "alttext" ++ "$"
    | none => ""

mutual
/-- `processInlineContent`'s loop over `element.childNodes`. -/
def inlineList : List Node → String
  | [] => ""
  | n :: ns => inlineNode n ++ inlineList ns

/-- One iteration of the `processInlineContent` loop: a text node contributes
its text; an element node is dispatched on tag and classes exactly as the
source's branch chain does.  The source's recursive calls
`processInlineContent(el)` are written `inlineList ch` here, which is the
same function applied to `el`'s child list. -/
def inlineNode : Node → String
  | .text s => s
  | .elem tg cls ats ch =>
    let el : Node := .elem tg cls ats ch
    let tagName := strLower tg
    if tagName == "math" || cls.contains "ltx_Math" then
      processMath el
    else if cls.contains "ltx_cite" then
      -- both ar5iv (a.ltx_ref) and arxiv.org/html (span.ltx_ref) shapes
      let refs := qsa el [Sel.mk (some "a") (some "ltx_ref"),

                          Sel.mk (some "span") (some "ltx_ref")]
      let citeTexts := (refs.map (fun r => trimWs (textContent r))).filter
        (fun t => t != "")
      "[" ++ String.intercalate ", " citeTexts ++ "]"
    else if cls.contains "ltx_ref" then
      -- the source's two branches on `href.startsWith('#')` emit the same text
      "[" ++ textContent el ++ "](" ++ el.getAttr "href" ++ ")"
    else if cls.contains "ltx_note" then
      let noteContent := textContent el
      if trimWs noteContent == "" then ""
      else " [^" ++ (trimWs noteContent).take 50 ++ "]"
    else if tagName == "a" then
      "[" ++ textContent el ++ "](" ++ el.getAttr "href" ++ ")"
    else if tagName == "br" then
      "\n"
    else if cls.contains "ltx_font_bold" || tagName == "b" || tagName == "strong" then
      "**" ++ inlineList ch ++ "**"
    else if cls.contains "ltx_font_italic" || tagName == "i" || tagName == "em" then
      "*" ++ inlineList ch ++ "*"
    else if tagName == "code" then
      "`" ++ textContent el ++ "`"
    else
      inlineList ch
end

/-- `processInlineContent`: render a run of text with inline markup. -/
def processInlineContent (element : Node) : String := inlineList element.childNodes

/-- The equation-tag cleanup `tag.replace(/^\((.+)\)$/, '$1')`: a single pair
of enclosing parentheses is stripped when the whole (trimmed) tag is of the
form `(<middle>)` with a non-empty middle that contains no line terminator
(in a JS regex without flags, `.` does not match a line terminator and the
anchors span the whole string). -/
def stripEqTag (tag : String) : String :=
  let mid := (tag.drop 1).dropRight 1
  if strStartsWith tag "(" && strEndsWith tag ")" && mid != ""
      && !(strContainsChar mid '\n') && !(strContainsChar mid '\r')
  then mid else tag

/-- `processEquation`: a block equation with a `math` descendant becomes a
display block `\n$$\n<alttext>\n$$` followed by ` (<tag>)` when a non-empty
tag remains after trimming and parenthesis stripping, and a final newline;
without a `math` descendant the result is `''`.  `eqTagText` is the
trimmed text of the equation's `.ltx_tag` element ('' when absent). -/
def eqTagText (element : Node) : String :=
  match qs element [Sel.mk none (some "ltx_tag")] with
  | some tagEl => trimWs (textContent tagEl)
  | none => ""

/-- `processEquation` (continued): the rendered display block. -/
def processEquation (element : Node) : String :=
  match qs element [Sel.mk (some "math") none] with
  | none => ""
  | some math =>
    let alttext := math.getAttr "alttext"
    let tag := stripEqTag (eqTagText element)
    "\n$$\n" ++ alttext ++ "\n$$" ++ (if tag == "" then "" else " (" ++ tag ++ ")") ++ "\n"

/-- `processFigure`: an image line (with `Figure` as the default alt text and
site-relative sources made absolute against the ar5iv host) and an italic
caption line, each present only when the corresponding descendant exists. -/
def processFigure (figure : Node) : String :=
  let imgPart :=
    match qs figure [Sel.mk (some "img") none] with
    | some img =>
      let src := img.getAttr "src"
      let alt := if img.getAttr "alt" == "" then "Figure" else img.getAttr "alt"
      let fullSrc := if strStartsWith src "/" then "https://ar5iv.labs.arxiv.org" ++ src else src
      "![" ++ alt ++ "](" ++ fullSrc ++ ")\n"
    | none => ""
  let capPart :=
    match qs figure [Sel.mk (some "figcaption") none] with
    | some caption => "\n*" ++ trimWs (processInlineContent caption) ++ "*\n"
    | none => ""
  "\n" ++ imgPart ++ capPart ++ "\n"

/-- Concatenation of a list of strings in order (the JS `md += ...`
accumulation pattern). -/
def concatStrs : List String → String
  | [] => ""
  | s :: ss => s ++ concatStrs ss

/-- The rendered cell texts of one table row: each `td`/`th` descendant's
inline content with literal pipes escaped, newlines collapsed to spaces, and
the result trimmed. -/
def tableCellTexts (row : Node) : List String :=
  (qsa row [Sel.mk (some "td") none, Sel.mk (some "th") none]).map
    (fun cell => trimWs (replaceChar (replaceChar (processInlineContent cell) '|' "\\|") '\n' " "))

/-- One pipe-table line built from a list of cell texts. -/
def tableRowLine (cells : List String) : String :=
  "| " ++ String.intercalate " | " cells ++ " |\n"

/-- `processTable`: rows (`tr` descendants) top to bottom; the first row is
followed by a `---` separator row with one cell per first-row cell; zero rows
yield `''`. -/
def processTable (table : Node) : String :=
  match qsa table [Sel.mk (some "tr") none] with
  | [] => ""
  | r :: rs =>
    let c0 := tableCellTexts r
    "\n" ++ tableRowLine c0 ++ tableRowLine (c0.map (fun _ => "---"))
      ++ concatStrs (rs.map (fun row => tableRowLine (tableCellTexts row))) ++ "\n"

/-- One iteration of the `processParagraph` loop over `para.children`:
`p.ltx_p` children render inline followed by a blank line, `table` children
render as equation or tabular table according to their classes, and
`figure.ltx_figure` children render as figures; everything else contributes
nothing.  (`processParagraph` compares `child.tagName` without lowercasing,
so the comparisons are against the upper-case JSDOM tag names.) -/
def paraChildMd : Node → String
  | .text _ => ""
  | .elem tg cls ats ch =>
    let c : Node := .elem tg cls ats ch
    if tg == "P" && cls.contains "ltx_p" then
      processInlineContent c ++ "\n\n"
    else if tg == "TABLE" then
      if cls.contains "ltx_equation" || cls.contains "ltx_eqn_table" then
        processEquation c
      else if cls.contains "ltx_tabular" then
        processTable c
      else ""
    else if tg == "FIGURE" && cls.contains "ltx_figure" then
      processFigure c
    else ""

/-- `processParagraph`: the concatenation of the structured renderings of the
element children; when that concatenation is empty, fall back to rendering
the whole container inline followed by a blank line. -/
def processParagraph (para : Node) : String :=
  let md := concatStrs (para.children.map paraChildMd)
  if md == "" then processInlineContent para ++ "\n\n" else md

/-- `'#'.repeat(level)`. -/
def hashes (level : Nat) : String := String.mk (List.replicate level '#')

mutual
/-- The `processSectionContent` loop over the section's children.  The source
iterates `section.children` (element children only); here the full child list
is traversed and `sectionChild` maps text nodes to `''`, which is the same
string. -/
def sectionList : List Node → Nat → String
  | [], _ => ""
  | n :: ns, level => sectionChild n level ++ sectionList ns level

/-- One iteration of the `processSectionContent` loop, dispatching on tag and
classes exactly as the source's branch chain does.  The recursive calls
`processSectionContent(child, ...)` are written `sectionList ch ...`, the
same function applied to the child's child list. -/
def sectionChild : Node → Nat → String
  | .text _, _ => ""
  | .elem tg cls ats ch, level =>
    let child : Node := .elem tg cls ats ch
    if tg == "H1" || tg == "H2" || tg == "H3" ||
        tg == "H4" || tg == "H5" || tg == "H6" then
      if cls.contains "ltx_title" then
        hashes level ++ " " ++ trimWs (processInlineContent child) ++ "\n\n"
      else ""
    else if cls.contains "ltx_para" then
      processParagraph child
    else if cls.contains "ltx_subsection" then
      sectionList ch (level + 1)
    else if cls.contains "ltx_subsubsection" then
      sectionList ch (level + 2)
    else if tg == "FIGURE" && cls.contains "ltx_figure" then
      processFigure child
    else if tg == "TABLE" then
      if cls.contains "ltx_equation" || cls.contains "ltx_eqn_table" then
        processEquation child
      else if cls.contains "ltx_tabular" then
        processTable child
      else ""
    else if cls.contains "ltx_theorem" || cls.contains "ltx_proof" then
      let title := match qs child [Sel.mk none (some "ltx_title")] with
        | some titleEl => trimWs (processInlineContent titleEl)
        | none => ""
      (if title == "" then "" else "\n**" ++ title ++ "**\n\n")
        ++ concatStrs ((qsa child [Sel.mk none (some "ltx_para")]).map processParagraph)
    else if tg == "DIV" && cls.contains "ltx_logical-block" then
      sectionList ch level
    else ""
end

/-- `processSectionContent(section, level)`. -/
def processSectionContent (sect : Node) (level : Nat) : String :=
  sectionList sect.childNodes level

/-- `extractTitle`: the first `h1.ltx_title_document`, rendered inline and
trimmed; `''` when absent. -/
def extractTitle (doc : Node) : String :=
  match qs doc [Sel.mk (some "h1") (some "ltx_title_document")] with
  | some titleEl => trimWs (processInlineContent titleEl)
  | none => ""

/-- `extractAuthors`: the first `.ltx_authors`, rendered inline, trimmed,
whitespace-collapsed; `''` when absent. -/
def extractAuthors (doc : Node) : String :=
  match qs doc [Sel.mk none (some "ltx_authors")] with
  | some authorsEl => collapseWs (trimWs (processInlineContent authorsEl))
  | none => ""

/-- `extractAbstract`: the first `p.ltx_p` inside the first `.ltx_abstract`,
rendered inline and trimmed; `''` when either is absent. -/
def extractAbstract (doc : Node) : String :=
  match qs doc [Sel.mk none (some "ltx_abstract")] with
  | none => ""
  | some abstractEl =>
    match qs abstractEl [Sel.mk (some "p") (some "ltx_p")] with
    | none => ""
    | some pEl => trimWs (processInlineContent pEl)

/-- The top-level body sections
`article.ltx_document > section.ltx_section`. -/
def bodySections (doc : Node) : List Node :=
  qsaChild doc (Sel.mk (some "article") (some "ltx_document"))
    (Sel.mk (some "section") (some "ltx_section"))

/-- `extractBody`: every top-level body section rendered at depth 2,
concatenated in document order. -/
def extractBody (doc : Node) : String :=
  concatStrs ((bodySections doc).map (fun s => processSectionContent s 2))

/-- The top-level appendix sections
`article.ltx_document > section.ltx_appendix`. -/
def appendixSections (doc : Node) : List Node :=
  qsaChild doc (Sel.mk (some "article") (some "ltx_document"))
    (Sel.mk (some "section") (some "ltx_appendix"))

/-- `extractAppendix`: every top-level appendix section rendered at depth 2,
concatenated in document order. -/
def extractAppendix (doc : Node) : String :=
  concatStrs ((appendixSections doc).map (fun s => processSectionContent s 2))

/-- `tag.replace(/^\[|\]$/g, '')`: drop one leading `[` and one trailing `]`
when present. -/
def stripBrackets (tag : String) : String :=
  let s1 := if strStartsWith tag "[" then tag.drop 1 else tag
  if strEndsWith s1 "]" then s1.dropRight 1 else s1

/-- One bibliography item (`li.ltx_bibitem`): an optional bracketed tag
(`span.ltx_tag_bibitem` or, failing that, `span.ltx_bibtag`) and the
non-empty rendered `span.ltx_bibblock` texts joined with spaces. -/
def bibItemMd (item : Node) : String :=
  let tagEl := match qs item [Sel.mk (some "span") (some "ltx_tag_bibitem")] with
    | some t => some t
    | none => qs item [Sel.mk (some "span") (some "ltx_bibtag")]
  let tag := stripBrackets (match tagEl with
    | some t => trimWs (textContent t)
    | none => "")
  let blockTexts := ((qsa item [Sel.mk (some "span") (some "ltx_bibblock")]).map
    (fun b => trimWs (processInlineContent b))).filter (fun t => t != "")
  if tag == "" then String.intercalate " " blockTexts ++ "\n\n"
  else "[" ++ tag ++ "] " ++ String.intercalate " " blockTexts ++ "\n\n"

/-- `extractReferences`: `''` without a `section.ltx_bibliography`; otherwise
a `## References` heading followed by one entry per `li.ltx_bibitem` of the
`ul.ltx_biblist` (just the heading when the list is absent). -/
def extractReferences (doc : Node) : String :=
  match qs doc [Sel.mk (some "section") (some "ltx_bibliography")] with
  | none => ""
  | some bibSection =>
    match qs bibSection [Sel.mk (some "ul") (some "ltx_biblist")] with
    | none => "## References\n\n"
    | some bibList =>
      "## References\n\n"
        ++ concatStrs ((qsa bibList [Sel.mk (some "li") (some "ltx_bibitem")]).map bibItemMd)

/-- The pure part of `convertAr5ivToMarkdown` after fetching and parsing:
assemble the requested detail level from the extracted regions.  `part` is
the raw selector string; as in the source's `switch`, any string other than
`abstract`, `body` and `appendix` takes the `all`/default branch. -/
def convertDoc (doc : Node) (part : String) : String :=
  let title := extractTitle doc
  let authors := extractAuthors doc
  let md1 := if title == "" then "" else "# " ++ title ++ "\n\n"
  let md2 := if authors != "" && part != "appendix" then
      "**Authors:** " ++ authors ++ "\n\n"
    else ""
  let rest :=
    if part == "abstract" then
      "## Abstract\n\n" ++ extractAbstract doc ++ "\n"
    else if part == "body" then
      let abstractForBody := extractAbstract doc
      (if abstractForBody == "" then ""
       else "## Abstract\n\n" ++ abstractForBody ++ "\n\n")
        ++ extractBody doc
    else if part == "appendix" then
      extractAppendix doc
    else
      let abstract := extractAbstract doc
      (if abstract == "" then "" else "## Abstract\n\n" ++ abstract ++ "\n\n")
        ++ extractBody doc
        ++ extractReferences doc
        ++ (let appendix := extractAppendix doc
            if appendix == "" then "" else "---\n\n# Appendix\n\n" ++ appendix)
  md1 ++ md2 ++ rest

/-- The title block emitted by the assembler: `# <title>` and a blank line,
or nothing when the title is empty. -/
def titleMd (doc : Node) : String :=
  if extractTitle doc == "" then "" else "# " ++ extractTitle doc ++ "\n\n"

/-- The authors block emitted by the assembler for non-appendix levels:
`**Authors:** <authors>` and a blank line, or nothing when the authors
string is empty. -/
def authorsBlock (doc : Node) : String :=
  if extractAuthors doc == "" then "" else "**Authors:** " ++ extractAuthors doc ++ "\n\n"

/-- The conditional abstract block of the `body` and `all` levels. -/
def abstractBlock (doc : Node) : String :=
  if extractAbstract doc == "" then "" else "## Abstract\n\n" ++ extractAbstract doc ++ "\n\n"

/-- The conditional appendix suffix of the `all` level. -/
def appendixBlock (doc : Node) : String :=
  if extractAppendix doc == "" then "" else "---\n\n# Appendix\n\n" ++ extractAppendix doc

/-- Whether a paragraph child has one of the structured shapes recognized by
`processParagraph`: an inline paragraph `p.ltx_p`, an equation table, a
tabular table, or a figure. -/
def recognizedParaChild (c : Node) : Bool :=
  (c.tagName == "P" && c.classes.contains "ltx_p")
  || (c.tagName == "TABLE"
      && (c.classes.contains "ltx_equation" || c.classes.contains "ltx_eqn_table"
          || c.classes.contains "ltx_tabular"))
  || (c.tagName == "FIGURE" && c.classes.contains "ltx_figure")

/-- The primary (ar5iv) mirror base URL. -/
def ar5ivBase : String := "https://ar5iv.labs.arxiv.org/html/"

/-- The secondary (arxiv.org/html) mirror base URL. -/
def arxivHtmlBase : String := "https://arxiv.org/html/"

/-- An HTTP response as observed by `fetchAr5iv`: a status code and a body.
`ok` is the fetch-API predicate `200 <= status <= 299`. -/
structure HttpResponse where
  status : Nat
  body : String

/-- The fetch-API `Response.ok` flag. -/
def HttpResponse.ok (r : HttpResponse) : Bool :=
  decide (200 ≤ r.status) && decide (r.status ≤ 299)

/-- Shallow model of `fetchAr5iv`: the network is modelled by the response
`primary` that the ar5iv mirror would give and the response `secondary` that
the arxiv.org/html mirror would give.  The first component is the returned
text or the thrown error message; the second component counts the requests
actually issued to the secondary mirror (the source reaches the secondary
fetch exactly in the `status === 307` branch, and there exactly once). -/
def fetchAr5iv (arxivId : String) (primary secondary : HttpResponse) :
    Except String String × Nat :=
  if primary.status == 307 then
    if !secondary.ok then
      (Except.error ("Paper HTML not available: ar5iv redirected, arxiv.org/html returned "
          ++ toString secondary.status), 1)
    else
      (Except.ok secondary.body, 1)
  else if !primary.ok then
    (Except.error ("Failed to fetch " ++ ar5ivBase ++ arxivId ++ ": "
        ++ toString primary.status), 0)
  else
    (Except.ok primary.body, 0)

/-! Concrete example documents used as witnesses. -/

/-- A document title heading. -/
def exTitleEl : Node := Node.elem "H1" ["ltx_title_document"] [] [Node.text "Demo Title"]

/-- An author list with internal double spacing (exercising collapse). -/
def exAuthorsEl : Node := Node.elem "DIV" ["ltx_authors"] [] [Node.text "Ann  Author"]

/-- An abstract region with one `p.ltx_p`. -/
def exAbstractEl : Node :=
  Node.elem "DIV" ["ltx_abstract"] []
    [Node.elem "P" ["ltx_p"] [] [Node.text "An abstract."]]

/-- A body section with a heading and a paragraph. -/
def exBodySec : Node :=
  Node.elem "SECTION" ["ltx_section"] []
    [Node.elem "H2" ["ltx_title"] [] [Node.text "Intro"],
     Node.elem "DIV" ["ltx_para"] []
       [Node.elem "P" ["ltx_p"] [] [Node.text "Body text."]]]

/-- An appendix section with a heading and a paragraph. -/
def exAppendixSec : Node :=
  Node.elem "SECTION" ["ltx_appendix"] []
    [Node.elem "H2" ["ltx_title"] [] [Node.text "Proofs"],
     Node.elem "DIV" ["ltx_para"] []
       [Node.elem "P" ["ltx_p"] [] [Node.text "Appendix text."]]]

/-- A bibliography with one tagged item. -/
def exBibSec : Node :=
  Node.elem "SECTION" ["ltx_bibliography"] []
    [Node.elem "UL" ["ltx_biblist"] []
      [Node.elem "LI" ["ltx_bibitem"] []
        [Node.elem "SPAN" ["ltx_tag_bibitem"] [] [Node.text "[1]"],
         Node.elem "SPAN" ["ltx_bibblock"] [] [Node.text "Some Reference."]]]]

/-- A complete example document. -/
def exDoc : Node :=
  Node.elem "HTML" [] []
    [Node.elem "ARTICLE" ["ltx_document"] []
      [exTitleEl, exAuthorsEl, exAbstractEl, exBodySec, exBibSec, exAppendixSec]]

/-- The example document with the abstract region removed. -/
def exDocNoAbstract : Node :=
  Node.elem "HTML" [] []
    [Node.elem "ARTICLE" ["ltx_document"] []
      [exTitleEl, exAuthorsEl, exBodySec, exBibSec, exAppendixSec]]

/-- The children of the example inline citation: two reference pointers with
visible texts `12` and `7`. -/
def exCiteKids : List Node :=
  [Node.elem "A" ["ltx_ref"] [("href", "#bib1")] [Node.text "12"],
   Node.text ", ",
   Node.elem "A" ["ltx_ref"] [("href", "#bib2")] [Node.text "7"]]

/-- An inline citation bundling two reference pointers `12` and `7`. -/
def exCite : Node := Node.elem "SPAN" ["ltx_cite"] [] exCiteKids

/-- An inline citation with no reference pointers inside. -/
def exCiteEmpty : Node :=
  Node.elem "SPAN" ["ltx_cite"] [] [Node.text "(unresolvable)"]

/-- First row of the 2×2 example table: header cells `A`,`B`. -/
def exRow1 : Node :=
  Node.elem "TR" [] []
    [Node.elem "TH" [] [] [Node.text "A"],
     Node.elem "TH" [] [] [Node.text "B"]]

/-- Second row of the 2×2 example table: data cells `1`,`2`. -/
def exRow2 : Node :=
  Node.elem "TR" [] []
    [Node.elem "TD" [] [] [Node.text "1"],
     Node.elem "TD" [] [] [Node.text "2"]]

/-- A 2×2 table: header cells `A`,`B`, data cells `1`,`2`. -/
def exTable : Node :=
  Node.elem "TABLE" ["ltx_tabular"] [] [Node.elem "TBODY" [] [] [exRow1, exRow2]]

/-- A table with no rows. -/
def exEmptyTable : Node := Node.elem "TABLE" ["ltx_tabular"] [] []

/-- The example equation's formula node, with alt-text `x=y`. -/
def exMathNode : Node := Node.elem "math" [] [("alttext", "x=y")] [Node.text "x=y"]

/-- A block equation with alt-text `x=y` and tag `(3)`. -/
def exEquation : Node :=
  Node.elem "TABLE" ["ltx_equation"] []
    [Node.elem "TR" [] []
      [Node.elem "TD" [] []
        [Node.elem "SPAN" ["ltx_tag"] [] [Node.text "(3)"], exMathNode]]]

/-- The children of the example subsection: one subsection heading. -/
def exSubKids : List Node :=
  [Node.elem "H3" ["ltx_title"] [] [Node.text "Sub"]]

/-- A paragraph container none of whose element children has a recognized
structured shape. -/
def exPlainPara : Node :=
  Node.elem "DIV" ["ltx_para"] []
    [Node.elem "SPAN" [] [] [Node.text "hello"]]

/-! Helper lemmas. -/

/-- A string with a trailing blank line is not empty. -/
theorem str_append_blank_ne_empty (s : String) : s ++ "\n\n" ≠ "" := by
  intro h
  have h2 : (s ++ "\n\n").length = ("" : String).length := by rw [h]
  rw [String.length_append] at h2
  have e1 : ("\n\n" : String).length = 2 := rfl
  have e2 : ("" : String).length = 0 := rfl
  rw [e1, e2] at h2
  omega

/-- With a non-empty title, the title block is the `# <title>` heading. -/
theorem titleMd_of_ne (doc : Node) (ht : extractTitle doc ≠ "") :
    titleMd doc = "# " ++ extractTitle doc ++ "\n\n" := by
  simp [titleMd, ht]

/-- With non-empty authors, the authors block is the `**Authors:**` line. -/
theorem authorsBlock_of_ne (doc : Node) (ha : extractAuthors doc ≠ "") :
    authorsBlock doc = "**Authors:** " ++ extractAuthors doc ++ "\n\n" := by
  simp [authorsBlock, ha]

/-- The `abstract` level assembles title, authors and the abstract section. -/
theorem convertDoc_abstract_eq (doc : Node) :
    convertDoc doc "abstract" =
      titleMd doc ++ authorsBlock doc ++ ("## Abstract\n\n" ++ extractAbstract doc ++ "\n") := by
  by_cases ha : extractAuthors doc = "" <;>
  simp [convertDoc, titleMd, authorsBlock, ha]

/-- The `body` level assembles title, authors, conditional abstract, body. -/
theorem convertDoc_body_eq (doc : Node) :
    convertDoc doc "body" =
      titleMd doc ++ authorsBlock doc ++ (abstractBlock doc ++ extractBody doc) := by
  by_cases ha : extractAuthors doc = "" <;> by_cases hb : extractAbstract doc = "" <;>
  simp [convertDoc, titleMd, authorsBlock, abstractBlock, ha, hb]

/-- The `all` level assembles every region. -/
theorem convertDoc_all_eq (doc : Node) :
    convertDoc doc "all" =
      titleMd doc ++ authorsBlock doc
        ++ (abstractBlock doc ++ extractBody doc ++ extractReferences doc ++ appendixBlock doc) := by
  by_cases ha : extractAuthors doc = "" <;> by_cases hb : extractAbstract doc = "" <;>
  by_cases hp : extractAppendix doc = "" <;>
  simp [convertDoc, titleMd, authorsBlock, abstractBlock, appendixBlock, ha, hb, hp,
    String.append_assoc]

/-- The `appendix` level assembles title and appendix only. -/
theorem convertDoc_appendix_eq (doc : Node) :
    convertDoc doc "appendix" = titleMd doc ++ extractAppendix doc := by
  simp [convertDoc, titleMd]

/-! Claim theorems. -/

/-- C1: for every document, the assembled output starts with the `# <title>`
heading at the levels `abstract`, `body` and `all` (when the title is
non-empty) and contains the `**Authors:**` line at exactly those levels; at
level `appendix` the output is the title block followed by the appendix
markdown and nothing else (no authors line), and it still starts with the
title heading when the title is non-empty. -/
theorem claim_C1 (doc : Node) (part : String) :
    ((part = "abstract" ∨ part = "body" ∨ part = "all") →
      (extractTitle doc ≠ "" →
        ∃ rest, convertDoc doc part = "# " ++ extractTitle doc ++ "\n\n" ++ rest) ∧
      (extractAuthors doc ≠ "" →
        ∃ pre rest, convertDoc doc part =
          pre ++ ("**Authors:** " ++ extractAuthors doc ++ "\n\n") ++ rest)) ∧
    convertDoc doc "appendix" = titleMd doc ++ extractAppendix doc ∧
    (extractTitle doc ≠ "" →
      ∃ rest, convertDoc doc "appendix" = "# " ++ extractTitle doc ++ "\n\n" ++ rest) := by
  refine ⟨?_, convertDoc_appendix_eq doc, ?_⟩
  · rintro (rfl | rfl | rfl)
    · refine ⟨fun ht => ⟨authorsBlock doc ++ ("## Abstract\n\n" ++ extractAbstract doc ++ "\n"), ?_⟩,
        fun ha => ⟨titleMd doc, "## Abstract\n\n" ++ extractAbstract doc ++ "\n", ?_⟩⟩
      · rw [convertDoc_abstract_eq, titleMd_of_ne doc ht]
        simp [String.append_assoc]
      · rw [convertDoc_abstract_eq, authorsBlock_of_ne doc ha]
    · refine ⟨fun ht => ⟨authorsBlock doc ++ (abstractBlock doc ++ extractBody doc), ?_⟩,
        fun ha => ⟨titleMd doc, abstractBlock doc ++ extractBody doc, ?_⟩⟩
      · rw [convertDoc_body_eq, titleMd_of_ne doc ht]
        simp [String.append_assoc]
      · rw [convertDoc_body_eq, authorsBlock_of_ne doc ha]
    · refine ⟨fun ht => ⟨authorsBlock doc ++ (abstractBlock doc ++ extractBody doc
          ++ extractReferences doc ++ appendixBlock doc), ?_⟩,
        fun ha => ⟨titleMd doc, abstractBlock doc ++ extractBody doc
          ++ extractReferences doc ++ appendixBlock doc, ?_⟩⟩
      · rw [convertDoc_all_eq, titleMd_of_ne doc ht]
        simp [String.append_assoc]
      · rw [convertDoc_all_eq, authorsBlock_of_ne doc ha]
  · intro ht
    refine ⟨extractAppendix doc, ?_⟩
    rw [convertDoc_appendix_eq, titleMd_of_ne doc ht]

/-- C1 witness: on the concrete example document, the `body` output starts
with the title heading and contains the authors line, and the `appendix`
output is title block plus appendix markdown. -/
theorem claim_C1_witness :
    (∃ rest, convertDoc exDoc "body" = "# " ++ extractTitle exDoc ++ "\n\n" ++ rest) ∧
    (∃ pre rest, convertDoc exDoc "body" =
      pre ++ ("**Authors:** " ++ extractAuthors exDoc ++ "\n\n") ++ rest) ∧
    convertDoc exDoc "appendix" = titleMd exDoc ++ extractAppendix exDoc :=
  ⟨((claim_C1 exDoc "body").1 (Or.inr (Or.inl rfl))).1 (by decide),
   ((claim_C1 exDoc "body").1 (Or.inr (Or.inl rfl))).2 (by decide),
   (claim_C1 exDoc "body").2.1⟩

/-- C2: the conversion is a pure function of the parsed document and the
requested level: converting equal inputs at equal levels yields
byte-identical Markdown. -/
theorem claim_C2 (doc1 doc2 : Node) (part1 part2 : String)
    (hdoc : doc1 = doc2) (hpart : part1 = part2) :
    convertDoc doc1 part1 = convertDoc doc2 part2 := by
  rw [hdoc, hpart]

/-- C2 witness: two runs on the example document at level `all` agree. -/
theorem claim_C2_witness : convertDoc exDoc "all" = convertDoc exDoc "all" :=
  claim_C2 exDoc exDoc "all" "all" rfl rfl

/-- C3: the `all` output extends the `body` output exactly by the references
markdown and the conditional appendix suffix appended after it. -/
theorem claim_C3 (doc : Node) :
    convertDoc doc "all" =
      convertDoc doc "body" ++ (extractReferences doc ++ appendixBlock doc) := by
  rw [convertDoc_all_eq, convertDoc_body_eq]
  simp [String.append_assoc]

/-- C9: at level `abstract` the `## Abstract` heading is always emitted, even
when the extracted abstract is empty; at levels `body` and `all` the heading
and abstract text appear exactly when the extracted abstract is non-empty. -/
theorem claim_C9 (doc : Node) :
    convertDoc doc "abstract" =
      titleMd doc ++ authorsBlock doc ++ "## Abstract\n\n" ++ extractAbstract doc ++ "\n" ∧
    (extractAbstract doc = "" →
      convertDoc doc "body" = titleMd doc ++ authorsBlock doc ++ extractBody doc ∧
      convertDoc doc "all" = titleMd doc ++ authorsBlock doc
        ++ extractBody doc ++ extractReferences doc ++ appendixBlock doc) ∧
    (extractAbstract doc ≠ "" →
      convertDoc doc "body" = titleMd doc ++ authorsBlock doc
        ++ "## Abstract\n\n" ++ extractAbstract doc ++ "\n\n" ++ extractBody doc ∧
      convertDoc doc "all" = titleMd doc ++ authorsBlock doc
        ++ "## Abstract\n\n" ++ extractAbstract doc ++ "\n\n" ++ extractBody doc
        ++ extractReferences doc ++ appendixBlock doc) := by
  refine ⟨?_, fun hb => ⟨?_, ?_⟩, fun hb => ⟨?_, ?_⟩⟩
  · rw [convertDoc_abstract_eq]
    simp [String.append_assoc]
  · rw [convertDoc_body_eq]
    simp [abstractBlock, hb]
  · rw [convertDoc_all_eq]
    simp [abstractBlock, hb, String.append_assoc]
  · rw [convertDoc_body_eq]
    simp [abstractBlock, hb, String.append_assoc]
  · rw [convertDoc_all_eq]
    simp [abstractBlock, hb, String.append_assoc]

/-- C9 witness: the example document without an abstract region gets no
`## Abstract` block at level `body`, while the full example document does;
the heading is emitted at level `abstract` in both cases. -/
theorem claim_C9_witness :
    convertDoc exDocNoAbstract "abstract" =
      titleMd exDocNoAbstract ++ authorsBlock exDocNoAbstract
        ++ "## Abstract\n\n" ++ extractAbstract exDocNoAbstract ++ "\n" ∧
    convertDoc exDocNoAbstract "body" =
      titleMd exDocNoAbstract ++ authorsBlock exDocNoAbstract ++ extractBody exDocNoAbstract ∧
    convertDoc exDoc "body" = titleMd exDoc ++ authorsBlock exDoc
      ++ "## Abstract\n\n" ++ extractAbstract exDoc ++ "\n\n" ++ extractBody exDoc :=
  ⟨(claim_C9 exDocNoAbstract).1,
   ((claim_C9 exDocNoAbstract).2.1 (by decide)).1,
   ((claim_C9 exDoc).2.2 (by decide)).1⟩

/-- C4: an inline citation span (an element carrying class `ltx_cite` that is
not math) renders as the trimmed texts of its nested reference pointers —
matching either mirror shape `a.ltx_ref` or `span.ltx_ref` — with the empty
ones dropped, joined with `, ` and wrapped in square brackets; a citation
with no resolvable pointers renders as `[]`, and the concrete citation
wrapping pointers `12` and `7` renders as `[12, 7]`. -/
theorem claim_C4 :
    (∀ tg cls ats ch, strLower tg ≠ "math" → cls.contains "ltx_Math" = false →
      cls.contains "ltx_cite" = true →
      inlineNode (Node.elem tg cls ats ch) =
        "[" ++ String.intercalate ", "
          (((qsa (Node.elem tg cls ats ch)
              [Sel.mk (some "a") (some "ltx_ref"), Sel.mk (some "span") (some "ltx_ref")]).map
            (fun r => trimWs (textContent r))).filter (fun t => t != "")) ++ "]") ∧
    processInlineContent (Node.elem "P" [] [] [exCite]) = "[12, 7]" ∧
    processInlineContent (Node.elem "P" [] [] [exCiteEmpty]) = "[]" := by
  refine ⟨?_, rfl, rfl⟩
  intro tg cls ats ch hmath hM hcite
  have h1 : (strLower tg == "math") = false := by simpa using hmath
  have hM2 : "ltx_Math" ∉ cls := by simpa using hM
  have hcite2 : "ltx_cite" ∈ cls := by simpa using hcite
  simp [inlineNode, h1, hM2, hcite2]

/-- C4 witness: applying the general citation shape to the concrete citation
node with pointer texts `12` and `7` yields `[12, 7]`. -/
theorem claim_C4_witness :
    inlineNode (Node.elem "SPAN" ["ltx_cite"] [] exCiteKids) = "[12, 7]" := by
  rw [claim_C4.1 "SPAN" ["ltx_cite"] [] exCiteKids (by decide) (by decide) (by decide)]
  decide

/-- C5: table rendering iterates rows top to bottom; a table whose row list
is empty renders as `''`; when rows exist, the output opens with the first
row's cell line followed by a separator row of `---` cells whose count is the
first row's column count; the concrete 2×2 table with header `A`,`B` and
data `1`,`2` renders as the standard pipe table. -/
theorem claim_C5 :
    (∀ table, qsa table [Sel.mk (some "tr") none] = [] → processTable table = "") ∧
    (∀ table r rs, qsa table [Sel.mk (some "tr") none] = r :: rs →
      ∃ tail, processTable table =
        "\n" ++ ("| " ++ String.intercalate " | " (tableCellTexts r) ++ " |\n")
          ++ ("| " ++ String.intercalate " | "
              (List.replicate (tableCellTexts r).length "---") ++ " |\n")
          ++ tail) ∧
    processTable exTable = "\n| A | B |\n| --- | --- |\n| 1 | 2 |\n\n" ∧
    processTable exEmptyTable = "" := by
  refine ⟨?_, ?_, rfl, rfl⟩
  · intro table h
    simp [processTable, h]
  · intro table r rs h
    refine ⟨concatStrs (rs.map (fun row => tableRowLine (tableCellTexts row))) ++ "\n", ?_⟩
    simp [processTable, h, tableRowLine, List.map_const', String.append_assoc]

/-- C5 witness: the general first-row/separator shape applied to the 2×2
example table. -/
theorem claim_C5_witness :
    ∃ tail, processTable exTable =
      "\n" ++ ("| " ++ String.intercalate " | " (tableCellTexts exRow1) ++ " |\n")
        ++ ("| " ++ String.intercalate " | "
            (List.replicate (tableCellTexts exRow1).length "---") ++ " |\n")
        ++ tail :=
  claim_C5.2.1 exTable exRow1 [exRow2] rfl

/-- C6: a block equation with a formula renders as a display block: newline,
`$$`, the formula's alt-text on its own line, `$$`, then a space and the
parenthesised tag when a tag remains after trimming and stripping one pair
of enclosing parentheses, then a final newline; `(3)` strips to `3`; the
concrete formula with alt-text `x=y` and tag `(3)` renders as
`\n$$\nx=y\n$$ (3)\n`. -/
theorem claim_C6 :
    (∀ element math, qs element [Sel.mk (some "math") none] = some math →
      processEquation element =
        "\n$$\n" ++ math.getAttr "alttext" ++ "\n$$"
          ++ (if stripEqTag (eqTagText element) == "" then ""
              else " (" ++ stripEqTag (eqTagText element) ++ ")") ++ "\n") ∧
    stripEqTag "(3)" = "3" ∧
    processEquation exEquation = "\n$$\nx=y\n$$ (3)\n" := by
  refine ⟨?_, by decide, rfl⟩
  intro element math h
  simp [processEquation, h]

/-- C6 witness: the general display-block shape applied to the concrete
equation node, whose formula node carries alt-text `x=y`. -/
theorem claim_C6_witness :
    processEquation exEquation =
      "\n$$\n" ++ exMathNode.getAttr "alttext" ++ "\n$$"
        ++ (if stripEqTag (eqTagText exEquation) == "" then ""
            else " (" ++ stripEqTag (eqTagText exEquation) ++ ")") ++ "\n" :=
  claim_C6.1 exEquation exMathNode rfl

/-- C7: body and appendix sections are rendered starting at heading depth 2;
a section heading is emitted with exactly `level` hash marks at the depth of
encounter; a nested subsection is rendered one level deeper, a
subsection-of-subsection construct two levels deeper, and a logical-group
wrapper at the unchanged level. -/
theorem claim_C7 :
    (∀ ats ch level, sectionChild (Node.elem "H2" ["ltx_title"] ats ch) level =
      hashes level ++ " "
        ++ trimWs (processInlineContent (Node.elem "H2" ["ltx_title"] ats ch)) ++ "\n\n") ∧
    (∀ tg cls ats ch level,
      (tg == "H1" || tg == "H2" || tg == "H3"
        || tg == "H4" || tg == "H5" || tg == "H6") = false →
      cls.contains "ltx_para" = false →
      cls.contains "ltx_subsection" = true →
      sectionChild (Node.elem tg cls ats ch) level =
        processSectionContent (Node.elem tg cls ats ch) (level + 1)) ∧
    (∀ tg cls ats ch level,
      (tg == "H1" || tg == "H2" || tg == "H3"
        || tg == "H4" || tg == "H5" || tg == "H6") = false →
      cls.contains "ltx_para" = false →
      cls.contains "ltx_subsection" = false →
      cls.contains "ltx_subsubsection" = true →
      sectionChild (Node.elem tg cls ats ch) level =
        processSectionContent (Node.elem tg cls ats ch) (level + 2)) ∧
    (∀ cls ats ch level,
      cls.contains "ltx_para" = false →
      cls.contains "ltx_subsection" = false →
      cls.contains "ltx_subsubsection" = false →
      cls.contains "ltx_theorem" = false →
      cls.contains "ltx_proof" = false →
      cls.contains "ltx_logical-block" = true →
      sectionChild (Node.elem "DIV" cls ats ch) level =
        processSectionContent (Node.elem "DIV" cls ats ch) level) ∧
    (∀ doc, extractBody doc =
        concatStrs ((bodySections doc).map (fun s => processSectionContent s 2)) ∧
      extractAppendix doc =
        concatStrs ((appendixSections doc).map (fun s => processSectionContent s 2))) := by
  refine ⟨?_, ?_, ?_, ?_, fun doc => ⟨rfl, rfl⟩⟩
  · intro ats ch level
    simp [sectionChild, processInlineContent]
  · intro tg cls ats ch level hhd hpara hsub
    have h1 : "ltx_para" ∉ cls := by simpa using hpara
    have h2 : "ltx_subsection" ∈ cls := by simpa using hsub
    simp only [Bool.or_eq_false_iff, beq_eq_false_iff_ne] at hhd
    simp [sectionChild, processSectionContent, Node.childNodes, hpara, hsub, h1, h2, hhd]
  · intro tg cls ats ch level hh hpara hsub hsub2
    have h1 : "ltx_para" ∉ cls := by simpa using hpara
    have h2 : "ltx_subsection" ∉ cls := by simpa using hsub
    have h3 : "ltx_subsubsection" ∈ cls := by simpa using hsub2
    simp only [Bool.or_eq_false_iff, beq_eq_false_iff_ne] at hh
    simp [sectionChild, processSectionContent, Node.childNodes, h1, h2, h3, hh]
  · intro cls ats ch level hpara hsub hsub2 hthm hprf hlog
    have h1 : "ltx_para" ∉ cls := by simpa using hpara
    have h2 : "ltx_subsection" ∉ cls := by simpa using hsub
    have h3 : "ltx_subsubsection" ∉ cls := by simpa using hsub2
    have h4 : "ltx_theorem" ∉ cls := by simpa using hthm
    have h5 : "ltx_proof" ∉ cls := by simpa using hprf
    have h6 : "ltx_logical-block" ∈ cls := by simpa using hlog
    simp [sectionChild, processSectionContent, Node.childNodes, h1, h2, h3, h4, h5, h6]

/-- C7 witness: on a concrete subsection carrying a depth-3 heading, the
renderer encountered at depth 2 descends to depth 3, and the heading then
carries three hash marks. -/
theorem claim_C7_witness :
    sectionChild (Node.elem "SECTION" ["ltx_subsection"] [] exSubKids) 2 =
      processSectionContent (Node.elem "SECTION" ["ltx_subsection"] [] exSubKids) 3 ∧
    processSectionContent (Node.elem "SECTION" ["ltx_subsection"] [] exSubKids) 3 =
      "### Sub\n\n" :=
  ⟨claim_C7.2.1 "SECTION" ["ltx_subsection"] [] exSubKids 2
    (by decide) (by decide) (by decide), by decide⟩

/-- C8: when the primary mirror answers with the 307 unavailability signal,
exactly one request is issued to the secondary mirror; the secondary's body
is returned when it responds ok, and otherwise the conversion fails with the
`Paper HTML not available` error; when the primary does not signal 307, the
secondary mirror is never contacted. -/
theorem claim_C8 (arxivId : String) (primary secondary : HttpResponse) :
    (primary.status = 307 →
      (fetchAr5iv arxivId primary secondary).2 = 1 ∧
      (secondary.ok = true →
        (fetchAr5iv arxivId primary secondary).1 = Except.ok secondary.body) ∧
      (secondary.ok = false →
        (fetchAr5iv arxivId primary secondary).1 =
          Except.error ("Paper HTML not available: ar5iv redirected, arxiv.org/html returned "
            ++ toString secondary.status))) ∧
    (primary.status ≠ 307 → (fetchAr5iv arxivId primary secondary).2 = 0) := by
  constructor
  · intro h307
    have hb : (primary.status == 307) = true := by simpa using h307
    refine ⟨?_, ?_, ?_⟩
    · by_cases hok : secondary.ok <;> simp [fetchAr5iv, hb, hok]
    · intro hok
      simp [fetchAr5iv, hb, hok]
    · intro hok
      simp [fetchAr5iv, hb, hok]
  · intro h
    have hb : (primary.status == 307) = false := by simpa using h
    by_cases hok : primary.ok <;> simp [fetchAr5iv, hb, hok]

/-- C8 witness: with a 307 primary response, one secondary request is issued
and a 200 secondary body is returned; with a 200 primary response, no
secondary request is issued. -/
theorem claim_C8_witness :
    (fetchAr5iv "2512.16906" (HttpResponse.mk 307 "") (HttpResponse.mk 200 "page")).2 = 1 ∧
    (fetchAr5iv "2512.16906" (HttpResponse.mk 307 "") (HttpResponse.mk 200 "page")).1 =
      Except.ok "page" ∧
    (fetchAr5iv "2512.16906" (HttpResponse.mk 200 "html") (HttpResponse.mk 200 "page")).2 = 0 :=
  ⟨((claim_C8 "2512.16906" ⟨307, ""⟩ ⟨200, "page"⟩).1 rfl).1,
   ((claim_C8 "2512.16906" ⟨307, ""⟩ ⟨200, "page"⟩).1 rfl).2.1 (by decide),
   (claim_C8 "2512.16906" ⟨200, "html"⟩ ⟨200, "page"⟩).2 (by decide)⟩

/-- An unrecognized paragraph child contributes nothing to the structured
rendering. -/
theorem paraChildMd_of_unrecognized (c : Node) (h : recognizedParaChild c = false) :
    paraChildMd c = "" := by
  cases c with
  | text s => rfl
  | elem tg cls ats ch =>
    simp only [recognizedParaChild, Node.tagName, Node.classes, Bool.or_eq_false_iff] at h
    obtain ⟨⟨hA, hB⟩, hC⟩ := h
    simp only [paraChildMd]
    rw [if_neg (by simp only [hA]; decide)]
    by_cases ht : (tg == "TABLE") = true
    · have he : (cls.contains "ltx_equation" || cls.contains "ltx_eqn_table"
          || cls.contains "ltx_tabular") = false := by
        rw [ht] at hB
        simpa using hB
      rw [Bool.or_eq_false_iff] at he
      obtain ⟨he12, he3⟩ := he
      rw [if_pos ht, if_neg (by simp only [he12]; decide),
        if_neg (by simp only [he3]; decide)]
    · rw [if_neg ht, if_neg (by simp only [hC]; decide)]

/-- Concatenating the structured renderings of unrecognized children yields
the empty string. -/
theorem concat_paraChildMd_empty (l : List Node)
    (h : ∀ c ∈ l, recognizedParaChild c = false) :
    concatStrs (l.map paraChildMd) = "" := by
  induction l with
  | nil => rfl
  | cons c cs ih =>
    have hc : paraChildMd c = "" := paraChildMd_of_unrecognized c (h c (by simp))
    have hcs := ih (fun d hd => h d (by simp [hd]))
    simp [concatStrs, hc, hcs]

/-- C10: a paragraph container none of whose element children matches a
recognized structured shape (inline paragraph, equation table, tabular
table, or figure) falls back to rendering the whole container's inline
content followed by a blank line, so it is never dropped from the output. -/
theorem claim_C10 (para : Node)
    (h : ∀ c ∈ para.children, recognizedParaChild c = false) :
    processParagraph para = processInlineContent para ++ "\n\n" ∧
    processParagraph para ≠ "" := by
  have hjoin : concatStrs (para.children.map paraChildMd) = "" :=
    concat_paraChildMd_empty para.children h
  have he : processParagraph para = processInlineContent para ++ "\n\n" := by
    simp [processParagraph, hjoin]
  exact ⟨he, he ▸ str_append_blank_ne_empty (processInlineContent para)⟩

/-- C10 witness: the concrete paragraph whose single element child is a bare
`span` wrapper is rendered through the inline fallback and is non-empty. -/
theorem claim_C10_witness :
    processParagraph exPlainPara = processInlineContent exPlainPara ++ "\n\n" ∧
    processParagraph exPlainPara ≠ "" :=
  claim_C10 exPlainPara (by decide)
